import Mathlib

/-!
Shallow embedding of the core of `cert-manager-webhook-contabo`:
the name-resolution helpers, the ACME record filter and the CleanUp
delete loop from `pkg/solver/solver.go`, and the token cache and
request plumbing from `pkg/contabo/client.go`.

Strings are modelled by Lean `String` (lists of characters standing for
Go's rune view; all inputs of interest are ASCII).  Times are modelled
as `Int` nanoseconds, matching Go's `time.Duration`/`time.Time` nanosecond
resolution.  Fallible operations return `Except`; the network is an
explicit oracle argument describing the one response the HTTP layer
would produce, and each operation also reports which requests it issued.
-/

namespace ContaboWebhook

/-- The suffix test of Go `strings.TrimSuffix`/`strings.HasSuffix`:
`suf` is a trailing suffix of `s`. -/
def endsWithList (s suf : List Char) : Bool :=
  decide (suf.length ≤ s.length) && decide (s.drop (s.length - suf.length) = suf)

/-- Go `strings.TrimSuffix s suf`: drop one trailing occurrence of `suf`
when present, otherwise return `s` unchanged. -/
def trimSuffix (s suf : List Char) : List Char :=
  if endsWithList s suf then s.take (s.length - suf.length) else s

/-- `normalizeZone` (solver.go:204-206): `strings.TrimSuffix(zone, ".")`. -/
def normalizeZone (zone : String) : String :=
  ⟨trimSuffix zone.data ['.']⟩

/-- `relativeRecordName` (solver.go:208-218). -/
def relativeRecordName (fqdn zone : String) : String :=
  let zone' := trimSuffix zone.data ['.']
  let fqdn' := trimSuffix fqdn.data ['.']
  let trimmed := trimSuffix fqdn' ('.' :: zone')
  let trimmed' := trimSuffix trimmed ['.']
  if trimmed' = [] then "@" else ⟨trimmed'⟩

/-- Character-wise simple case folding, as Go `strings.EqualFold` compares
rune by rune.  `Char.toLower` lowers ASCII letters, which coincides with
Go's simple fold on the ASCII letters occurring in `"TXT"`. -/
def eqFoldChars : List Char → List Char → Bool
  | [], [] => true
  | c :: cs, d :: ds => (c.toLower == d.toLower) && eqFoldChars cs ds
  | _, _ => false

/-- Go `strings.EqualFold` on the two strings' rune sequences. -/
def goEqualFold (s t : String) : Bool :=
  eqFoldChars s.data t.data

/-- ASCII lowering of a whole string (used to state case-insensitive
equality in specification form). -/
def lowerStr (s : String) : String :=
  ⟨s.data.map Char.toLower⟩

/-- `DNSRecord` (client.go:203-210).  `recordID` is Go `int64`. -/
structure DNSRecord where
  recordID : Int
  name : String
  type : String
  data : String
  ttl : Int
  prio : Int
deriving Repr, DecidableEq

/-- `CreateRecordRequest` (client.go:213-219). -/
structure CreateRecordRequest where
  name : String
  type : String
  ttl : Int
  prio : Int
  data : String
deriving Repr, DecidableEq

/-- `isACMERecord` (solver.go:220-231), transcribing the chain of early
`return false` branches. -/
def isACMERecord (record : DNSRecord) (name value : String) : Bool :=
  if !(goEqualFold record.type "TXT") then false
  else if record.name != name then false
  else if value != "" && record.data != value then false
  else true

/-- The error taxonomy the client produces.  `transport` stands for an
error returned by `httpClient.Do`; `authStatus`, `authParse` and
`authMissingToken` are the three failure exits of `ensureToken`
(client.go:169-180); `api` is the formatted record-API error
(client.go:122-128); `decodeBody` is a failed decode of a success body
(client.go:131-135); `config` is a configuration/credentials error
raised before any client exists. -/
inductive Err where
  | transport (msg : String)
  | authStatus (status : String)
  | authParse
  | authMissingToken
  | api (detail : String)
  | decodeBody
  | config (msg : String)
deriving Repr, DecidableEq

/-- The errors the spec's taxonomy classes as AuthError: token endpoint
returned a non-success status, unparsable token body, or missing
`access_token`. -/
def isAuthError : Err → Bool
  | .authStatus _ => true
  | .authParse => true
  | .authMissingToken => true
  | _ => false

/-- Nanoseconds per second: Go `time.Second`. -/
def nsPerSecond : Int := 1000000000

/-- The token cache fields of `Client` (client.go:32-34): `accessToken`
and `expiresAt` (nanoseconds since epoch; the zero value `0` stands for
Go's zero `time.Time`). -/
structure TokenState where
  accessToken : String
  expiresAt : Int
deriving Repr, DecidableEq

/-- `tokenResponse` (client.go:188-192), the decoded auth body. -/
structure TokenResponse where
  access_token : String
  token_type : String
  expires_in : Int
deriving Repr, DecidableEq

/-- What the auth endpoint answers one token request with: a transport
failure from `httpClient.Do`, or an HTTP response with its status code,
its status line, and the decoded body (`none` when the JSON decode at
client.go:174 fails). -/
inductive AuthResponse where
  | transportError (msg : String)
  | response (statusCode : Nat) (status : String) (body : Option TokenResponse)
deriving Repr, DecidableEq

/-- Outcome of one `ensureToken` call: the token state after the call,
the returned error or success, and whether an auth request was issued. -/
structure EnsureTokenResult where
  state : TokenState
  result : Except Err Unit
  authRequested : Bool

/-- The cached-token test of client.go:144:
`c.accessToken != "" && time.Until(c.expiresAt) > 30*time.Second`. -/
def cachedTokenUsable (st : TokenState) (now : Int) : Bool :=
  st.accessToken != "" && decide (st.expiresAt - now > 30 * nsPerSecond)

/-- `ensureToken` (client.go:140-186).  `now` is the current time; the
model uses one time for the validity check and the expiry computation
(Go reads the clock at both points within the same locked call). -/
def ensureToken (st : TokenState) (now : Int) (auth : AuthResponse) : EnsureTokenResult :=
  if cachedTokenUsable st now then ⟨st, .ok (), false⟩
  else
    match auth with
    | .transportError msg => ⟨st, .error (.transport msg), true⟩
    | .response code status body =>
      if 300 ≤ code then ⟨st, .error (.authStatus status), true⟩
      else
        match body with
        | none => ⟨st, .error .authParse, true⟩
        | some tok =>
          if tok.access_token = "" then ⟨st, .error .authMissingToken, true⟩
          else ⟨⟨tok.access_token, now + tok.expires_in * nsPerSecond⟩, .ok (), true⟩

/-- What the record API answers one request with: transport failure, or
a response with status code, status line, the decoded provider error
message (client.go:123-124; the decode error is ignored there, so an
absent or undecodable message is the zero value `""`), and whether a
success body decodes when one is expected. -/
inductive ApiResponse where
  | transportError (msg : String)
  | response (statusCode : Nat) (status : String) (errorMessage : String) (bodyOk : Bool)
deriving Repr, DecidableEq

/-- Outcome of one `doJSON` call: token state afterwards, the result,
and whether the record-API request was actually issued. -/
structure DoJSONResult where
  state : TokenState
  result : Except Err Unit
  apiRequested : Bool

/-- The part of `doJSON` (client.go:107-137) after `ensureToken`
succeeded: issue the request and translate the response. -/
def doJSONWithToken (st : TokenState) (api : ApiResponse) (wantOut : Bool) : DoJSONResult :=
  match api with
  | .transportError msg => ⟨st, .error (.transport msg), true⟩
  | .response code status errMsg bodyOk =>
    if 300 ≤ code then
      if errMsg != "" then ⟨st, .error (.api ("contabo api error: " ++ errMsg)), true⟩
      else ⟨st, .error (.api ("contabo api error: status " ++ status)), true⟩
    else if wantOut && !bodyOk then ⟨st, .error .decodeBody, true⟩
    else ⟨st, .ok (), true⟩

/-- `doJSON` (client.go:91-138): `ensureToken` first, returning its error
without touching the record API; then the request itself. -/
def doJSON (st : TokenState) (now : Int) (auth : AuthResponse) (api : ApiResponse)
    (wantOut : Bool) : DoJSONResult :=
  match (ensureToken st now auth).result with
  | .error e => ⟨(ensureToken st now auth).state, .error e, false⟩
  | .ok _ => doJSONWithToken (ensureToken st now auth).state api wantOut

/-- The requests the solver issues against the record API, as observable
operations: a create (client.go:67-69), a list with its optional search
parameter (client.go:72-84: the parameter is attached exactly when the
search string is non-empty), and a delete by record id (client.go:87-89). -/
inductive Op where
  | create (zone : String) (req : CreateRecordRequest)
  | list (zone : String) (search : Option String)
  | delete (zone : String) (recordID : Int)
deriving Repr, DecidableEq

/-- The webhook `Config` fields the reconciler reads (part_000 / solver.go). -/
structure Config where
  TTL : Int
  TimeoutSecs : Int
deriving Repr, DecidableEq

/-- `Config.ttl` (solver.go:233-238). -/
def Config.ttl (c : Config) : Int :=
  if c.TTL ≤ 0 then 120 else c.TTL

/-- The fields of `v1alpha1.ChallengeRequest` the reconciler reads. -/
structure Challenge where
  resolvedZone : String
  resolvedFQDN : String
  key : String

/-- `Present` from the zone/name resolution on (solver.go:78-91): build
the one create request and issue it; the result is whatever
`CreateRecord` returns.  Returns the issued operations and the result. -/
def present (cfg : Config) (ch : Challenge) (createResult : Except Err Unit) :
    List Op × Except Err Unit :=
  let zone := normalizeZone ch.resolvedZone
  let recordName := relativeRecordName ch.resolvedFQDN ch.resolvedZone
  let req : CreateRecordRequest :=
    { name := recordName, type := "TXT", ttl := cfg.ttl, prio := 0, data := ch.key }
  ([Op.create zone req], createResult)

/-- The provider's answers to the requests CleanUp makes: the outcome of
`ListRecords zone search` and of `DeleteRecord zone recordID`. -/
structure CleanUpEnv where
  listRecords : String → String → Except Err (List DNSRecord)
  deleteRecord : String → Int → Except Err Unit

/-- The delete loop of `CleanUp` (solver.go:120-128): walk the listed
records in order, delete each ACME match, return the first delete error
immediately.  Yields the record ids passed to `DeleteRecord`, in call
order, and the loop's result. -/
def cleanUpLoop (del : Int → Except Err Unit) (name value : String) :
    List DNSRecord → List Int × Except Err Unit
  | [] => ([], .ok ())
  | r :: rest =>
    if isACMERecord r name value then
      match del r.recordID with
      | .ok _ =>
        let p := cleanUpLoop del name value rest
        (r.recordID :: p.1, p.2)
      | .error e => ([r.recordID], .error e)
    else cleanUpLoop del name value rest

/-- `CleanUp` from the zone/name resolution on (solver.go:112-131):
list the zone's records filtered by the resolved name, then run the
delete loop.  Returns the issued operations and the result. -/
def cleanUp (env : CleanUpEnv) (resolvedZone resolvedFQDN key : String) :
    List Op × Except Err Unit :=
  let zone := normalizeZone resolvedZone
  let recordName := relativeRecordName resolvedFQDN resolvedZone
  let listOp := Op.list zone (if recordName = "" then none else some recordName)
  match env.listRecords zone recordName with
  | .error e => ([listOp], .error e)
  | .ok records =>
    let p := cleanUpLoop (env.deleteRecord zone) recordName key records
    (listOp :: p.1.map (Op.delete zone), p.2)

/-- The ids of the records `isACMERecord` selects, in list order
(specification-side shorthand for the loop's deletion candidates). -/
def matchingIDs (records : List DNSRecord) (name value : String) : List Int :=
  (records.filter (fun r => isACMERecord r name value)).map (·.recordID)

/-- Specification-side: delete the given ids in order, stopping at the
first error; yields the ids passed to delete, and the result. -/
def deleteSeq (del : Int → Except Err Unit) : List Int → List Int × Except Err Unit
  | [] => ([], .ok ())
  | id :: rest =>
    match del id with
    | .ok _ =>
      let p := deleteSeq del rest
      (id :: p.1, p.2)
    | .error e => ([id], .error e)

/-- Go `unicode.IsSpace` restricted to the Latin-1 range (the cases of
Go's `isSpace` fast path; the claims only need which values trim to
empty). -/
def goIsSpace (c : Char) : Bool :=
  c == ' ' || c == '\t' || c == '\n' || c == Char.ofNat 0x0B || c == Char.ofNat 0x0C ||
    c == '\r' || c == Char.ofNat 0x85 || c == Char.ofNat 0xA0

/-- Go `strings.TrimSpace` on the rune list: drop leading and trailing
whitespace. -/
def trimSpaceList (l : List Char) : List Char :=
  ((l.dropWhile goIsSpace).reverse.dropWhile goIsSpace).reverse

/-- Go `strings.TrimSpace`. -/
def goTrimSpace (s : String) : String :=
  ⟨trimSpaceList s.data⟩

/-- The four entries `credentialsFromSecret` reads from `secret.Data`.
A missing key is `none`; Go's map lookup then yields a nil byte slice,
whose string conversion is `""`. -/
structure SecretData where
  clientId : Option String
  clientSecret : Option String
  username : Option String
  password : Option String

/-- `credentials` (solver.go:35-40). -/
structure Credentials where
  clientID : String
  clientSecret : String
  username : String
  password : String
deriving Repr, DecidableEq

/-- `credentialsFromSecret` (solver.go:161-185). -/
def credentialsFromSecret (s : SecretData) : Except String Credentials :=
  let clientID := goTrimSpace (s.clientId.getD "")
  let clientSecret := goTrimSpace (s.clientSecret.getD "")
  let username := goTrimSpace (s.username.getD "")
  let password := goTrimSpace (s.password.getD "")
  if clientID = "" || clientSecret = "" || username = "" || password = "" then
    .error "secret must contain non-empty clientId, clientSecret, username, and password keys"
  else
    .ok { clientID, clientSecret, username, password }

/-- `Present` including the credentials step (solver.go:59-91): when
`loadCredentials` fails, Present returns before any client is built, so
no operation is issued. -/
def presentWithSecret (cfg : Config) (secret : SecretData) (ch : Challenge)
    (createResult : Except Err Unit) : List Op × Except Err Unit :=
  match credentialsFromSecret secret with
  | .error msg => ([], .error (.config msg))
  | .ok _ => present cfg ch createResult

/-- Concrete candidate records exercising the CleanUp loop: three ACME
matches and one non-match. -/
def recsW : List DNSRecord :=
  [⟨1, "_acme-challenge", "TXT", "v1", 120, 0⟩,
   ⟨2, "_acme-challenge", "TXT", "v1", 120, 0⟩,
   ⟨3, "_acme-challenge", "TXT", "v1", 120, 0⟩,
   ⟨4, "other", "TXT", "v1", 120, 0⟩]

/-- A concrete provider in which deleting record 2 fails and every other
delete succeeds. -/
def envW : CleanUpEnv where
  listRecords := fun _ _ => .ok recsW
  deleteRecord := fun _ id => if id = 2 then .error (.api "boom") else .ok ()

/-- The token-request failure modes named by the spec: the auth endpoint
answered with a non-success status, the token body did not parse, or the
parsed body carries an empty `access_token`. -/
def authRequestFails : AuthResponse → Prop
  | .transportError _ => False
  | .response code _ body =>
      300 ≤ code ∨ body = none ∨ ∃ tok, body = some tok ∧ tok.access_token = ""

/-! ### Facts about `trimSuffix` -/

theorem endsWithList_iff (s suf : List Char) :
    endsWithList s suf = true ↔
      suf.length ≤ s.length ∧ s.drop (s.length - suf.length) = suf := by
  simp [endsWithList]

theorem endsWithList_append (m t : List Char) : endsWithList (m ++ t) t = true := by
  rw [endsWithList_iff]
  refine ⟨by simp, ?_⟩
  have h1 : (m ++ t).length - t.length = m.length := by simp
  rw [h1]
  exact List.drop_left m t

theorem endsWithList_singleton_iff (s : List Char) (c : Char) :
    endsWithList s [c] = true ↔ ∃ l, s = l ++ [c] := by
  constructor
  · intro h
    rw [endsWithList_iff] at h
    obtain ⟨hle, hdrop⟩ := h
    refine ⟨s.take (s.length - 1), ?_⟩
    conv_lhs => rw [← List.take_append_drop (s.length - 1) s]
    simp only [List.length_singleton] at hdrop
    rw [hdrop]
  · rintro ⟨l, rfl⟩
    exact endsWithList_append l [c]

theorem endsWithList_concat_singleton_iff (l : List Char) (c d : Char) :
    endsWithList (l ++ [c]) [d] = true ↔ c = d := by
  rw [endsWithList_iff]
  constructor
  · rintro ⟨-, hdrop⟩
    have h1 : (l ++ [c]).length - [d].length = l.length := by simp
    rw [h1, List.drop_left] at hdrop
    exact (List.cons.injEq c [] d []).mp hdrop |>.1
  · rintro rfl
    refine ⟨by simp, ?_⟩
    have h1 : (l ++ [c]).length - [c].length = l.length := by simp
    rw [h1]
    exact List.drop_left l [c]

theorem trimSuffix_concat_singleton (l : List Char) (c d : Char) :
    trimSuffix (l ++ [c]) [d] = if c = d then l else l ++ [c] := by
  by_cases h : c = d
  · rw [if_pos h]
    have he : endsWithList (l ++ [c]) [d] = true :=
      (endsWithList_concat_singleton_iff l c d).mpr h
    have h1 : (l ++ [c]).length - [d].length = l.length := by simp
    unfold trimSuffix
    rw [if_pos he, h1]
    exact List.take_left l [c]
  · rw [if_neg h]
    have he : ¬ endsWithList (l ++ [c]) [d] = true := by
      rw [endsWithList_concat_singleton_iff]
      exact h
    unfold trimSuffix
    rw [if_neg he]

theorem trimSuffix_of_not_ends (s suf : List Char) (h : ¬ endsWithList s suf = true) :
    trimSuffix s suf = s := by
  unfold trimSuffix
  rw [if_neg h]

/-! ### C7 — `normalizeZone` -/

/-- C7 counterexample: `normalizeZone` is not idempotent on `"a.."`:
one application strips one trailing `'.'` leaving `"a."`, and a second
application strips another. -/
theorem normalizeZone_not_idem_cex :
    normalizeZone (normalizeZone "a..") ≠ normalizeZone "a.." := by decide

/-- C7 (amended): `normalizeZone` strips exactly one trailing `'.'`
when one is present and leaves a string without one unchanged; it is
idempotent on every string that does not end in `".."` (on a string
ending in `".."`, stripping one dot exposes another). -/
theorem normalizeZone_amended_spec (z : String) :
    (endsWithList z.data ['.'] = true → (normalizeZone z).data ++ ['.'] = z.data) ∧
    (endsWithList z.data ['.'] = false → normalizeZone z = z) ∧
    (endsWithList z.data ['.', '.'] = false →
      normalizeZone (normalizeZone z) = normalizeZone z) := by
  obtain ⟨zl⟩ := z
  refine ⟨?_, ?_, ?_⟩
  · intro h
    obtain ⟨l, hl⟩ := (endsWithList_singleton_iff zl '.').mp h
    subst hl
    show trimSuffix (l ++ ['.']) ['.'] ++ ['.'] = l ++ ['.']
    rw [trimSuffix_concat_singleton, if_pos rfl]
  · intro h
    show (⟨trimSuffix zl ['.']⟩ : String) = ⟨zl⟩
    rw [trimSuffix_of_not_ends zl ['.'] (by simp [h])]
  · intro h2
    cases h1 : endsWithList zl ['.'] with
    | false =>
      have hz : normalizeZone ⟨zl⟩ = ⟨zl⟩ := by
        show (⟨trimSuffix zl ['.']⟩ : String) = ⟨zl⟩
        rw [trimSuffix_of_not_ends zl ['.'] (by simp [h1])]
      rw [hz, hz]
    | true =>
      obtain ⟨l, hl⟩ := (endsWithList_singleton_iff zl '.').mp h1
      subst hl
      have hz : normalizeZone ⟨l ++ ['.']⟩ = ⟨l⟩ := by
        show (⟨trimSuffix (l ++ ['.']) ['.']⟩ : String) = ⟨l⟩
        rw [trimSuffix_concat_singleton, if_pos rfl]
      rw [hz]
      have hne : ¬ endsWithList l ['.'] = true := by
        intro hc
        obtain ⟨m, hm⟩ := (endsWithList_singleton_iff l '.').mp hc
        subst hm
        have hend : endsWithList ((m ++ ['.']) ++ ['.']) ['.', '.'] = true := by
          have hassoc : (m ++ ['.']) ++ ['.'] = m ++ ['.', '.'] := by simp
          rw [hassoc]
          exact endsWithList_append m ['.', '.']
        rw [hend] at h2
        exact Bool.noConfusion h2
      show (⟨trimSuffix l ['.']⟩ : String) = ⟨l⟩
      rw [trimSuffix_of_not_ends l ['.'] hne]

/-! ### C3 — `relativeRecordName` at the zone apex -/

/-- C3: evaluation of `relativeRecordName` at the apex input of the
repository's own test `TestRelativeRecordNameRoot`.  The code trims the
trailing `'.'` from both arguments and then tries to strip the suffix
`"." ++ zone`, which is longer than the remaining FQDN, so nothing is
stripped and the FQDN itself is returned — not the sentinel `"@"` the
test (and the claim) expect. -/
theorem relativeRecordName_apex :
    relativeRecordName "example.com." "example.com." = "example.com" := by decide

/-! ### C9 — the resolved name is never empty -/

theorem relativeRecordName_ne_empty (fqdn zone : String) :
    relativeRecordName fqdn zone ≠ "" := by
  unfold relativeRecordName
  dsimp only
  split
  · decide
  · next h =>
    intro hc
    exact h (by simpa using congrArg String.data hc)

/-- C9: `relativeRecordName` always returns a non-empty string (the
empty result is replaced by the sentinel `"@"`), so the filter CleanUp
passes to `ListRecords` is non-empty and the search parameter is
attached to the list request it issues. -/
theorem cleanUp_search_attached (env : CleanUpEnv) (rz rf key : String) :
    relativeRecordName rf rz ≠ "" ∧
    (cleanUp env rz rf key).1.head? =
      some (Op.list (normalizeZone rz) (some (relativeRecordName rf rz))) := by
  refine ⟨relativeRecordName_ne_empty rf rz, ?_⟩
  unfold cleanUp
  cases h : env.listRecords (normalizeZone rz) (relativeRecordName rf rz) <;>
    simp [h, relativeRecordName_ne_empty rf rz]

/-! ### C1 — the ACME record filter -/

theorem eqFoldChars_iff : ∀ a b : List Char,
    eqFoldChars a b = true ↔ a.map Char.toLower = b.map Char.toLower
  | [], [] => by simp [eqFoldChars]
  | [], _ :: _ => by simp [eqFoldChars]
  | _ :: _, [] => by simp [eqFoldChars]
  | c :: cs, d :: ds => by
    simp [eqFoldChars, Bool.and_eq_true, beq_iff_eq, eqFoldChars_iff cs ds]

/-- C1: a candidate record passes `isACMERecord` — and is thereby
selected for deletion by CleanUp — exactly when its type
case-insensitively equals `"TXT"`, its name equals the resolved name,
and the proof value is empty or equal to the record's data. -/
theorem isACMERecord_iff (record : DNSRecord) (name value : String) :
    isACMERecord record name value = true ↔
      (lowerStr record.type = "txt" ∧ record.name = name ∧
        (value = "" ∨ record.data = value)) := by
  have hTXT : "TXT".data.map Char.toLower = "txt".data := by decide
  have hfold : goEqualFold record.type "TXT" = true ↔ lowerStr record.type = "txt" := by
    rw [goEqualFold, eqFoldChars_iff]
    constructor
    · intro h
      exact String.ext (h.trans hTXT)
    · intro h
      have h2 : record.type.data.map Char.toLower = "txt".data := congrArg String.data h
      rw [h2, hTXT]
  rw [← hfold]
  unfold isACMERecord
  cases hg : goEqualFold record.type "TXT" <;>
    cases hn : record.name != name <;>
      cases hv : (value != "" && record.data != value) <;>
        (simp_all [bne_iff_ne, Bool.and_eq_true]; try tauto)

/-! ### C4 — the token cache -/

theorem cachedTokenUsable_iff (st : TokenState) (now : Int) :
    cachedTokenUsable st now = true ↔
      st.accessToken ≠ "" ∧ now + 30 * nsPerSecond < st.expiresAt := by
  unfold cachedTokenUsable
  rw [Bool.and_eq_true, bne_iff_ne, decide_eq_true_eq]
  constructor
  · rintro ⟨h1, h2⟩
    exact ⟨h1, by omega⟩
  · rintro ⟨h1, h2⟩
    exact ⟨h1, by omega⟩

/-- C4: `ensureToken` returns without issuing an auth request exactly
when a token is cached and `now + 30s` is strictly before the stored
expiry — and then the state and result are untouched; otherwise it
refreshes, and on a successful refresh the stored token becomes the
response's `access_token` with expiry `now` plus `expires_in` seconds. -/
theorem ensureToken_spec (st : TokenState) (now : Int) (auth : AuthResponse) :
    ((ensureToken st now auth).authRequested = false ↔
        (st.accessToken ≠ "" ∧ now + 30 * nsPerSecond < st.expiresAt)) ∧
    ((ensureToken st now auth).authRequested = false →
        ensureToken st now auth = ⟨st, .ok (), false⟩) ∧
    (∀ code status tok, auth = .response code status (some tok) → code < 300 →
        tok.access_token ≠ "" → (ensureToken st now auth).authRequested = true →
        ensureToken st now auth =
          ⟨⟨tok.access_token, now + tok.expires_in * nsPerSecond⟩, .ok (), true⟩) := by
  cases hc : cachedTokenUsable st now with
  | true =>
    have h := (cachedTokenUsable_iff st now).mp hc
    refine ⟨?_, ?_, ?_⟩
    · simp [ensureToken, hc, h]
    · intro _
      simp [ensureToken, hc]
    · intro code status tok heq hlt hne hreq
      simp [ensureToken, hc] at hreq
  | false =>
    have hnot : ¬ cachedTokenUsable st now = true := by simp [hc]
    have hreq : (ensureToken st now auth).authRequested = true := by
      unfold ensureToken
      rw [if_neg hnot]
      cases auth with
      | transportError m => rfl
      | response code status body =>
        dsimp only
        split
        · rfl
        · cases body with
          | none => rfl
          | some tok =>
            dsimp only
            split <;> rfl
    refine ⟨?_, ?_, ?_⟩
    · constructor
      · intro h
        rw [hreq] at h
        exact Bool.noConfusion h
      · intro hp
        exact absurd ((cachedTokenUsable_iff st now).mpr hp) hnot
    · intro h
      rw [hreq] at h
      exact Bool.noConfusion h
    · rintro code status tok rfl hlt hne -
      unfold ensureToken
      rw [if_neg hnot]
      try dsimp only
      rw [if_neg (by omega : ¬ 300 ≤ code)]
      try dsimp only
      rw [if_neg hne]

/-! ### C6 — auth failure reaches no record API -/

/-- C6: when the cached token is unusable and the token request fails
(non-success auth status, unparsable token body, or empty
`access_token`), the operation returns an AuthError and no
create/list/delete request is sent to the record API. -/
theorem authFailure_no_api_call (st : TokenState) (now : Int) (auth : AuthResponse)
    (api : ApiResponse) (wantOut : Bool)
    (hstale : cachedTokenUsable st now = false)
    (hfail : authRequestFails auth) :
    (doJSON st now auth api wantOut).apiRequested = false ∧
    ∃ e, (doJSON st now auth api wantOut).result = .error e ∧ isAuthError e = true := by
  have hnot : ¬ cachedTokenUsable st now = true := by simp [hstale]
  cases auth with
  | transportError m => exact hfail.elim
  | response code status body =>
    by_cases hcode : 300 ≤ code
    · have het : ensureToken st now (.response code status body) =
          ⟨st, .error (.authStatus status), true⟩ := by
        unfold ensureToken
        rw [if_neg hnot]
        try dsimp only
        rw [if_pos hcode]
      exact ⟨by simp [doJSON, het], .authStatus status, by simp [doJSON, het], rfl⟩
    · rcases hfail with h | hnone | ⟨tok, hbody, htok⟩
      · omega
      · subst hnone
        have het : ensureToken st now (.response code status none) =
            ⟨st, .error .authParse, true⟩ := by
          unfold ensureToken
          rw [if_neg hnot]
          try dsimp only
          rw [if_neg hcode]
        exact ⟨by simp [doJSON, het], .authParse, by simp [doJSON, het], rfl⟩
      · subst hbody
        have het : ensureToken st now (.response code status (some tok)) =
            ⟨st, .error .authMissingToken, true⟩ := by
          unfold ensureToken
          rw [if_neg hnot]
          try dsimp only
          rw [if_neg hcode]
          try dsimp only
          rw [if_pos htok]
        exact ⟨by simp [doJSON, het], .authMissingToken, by simp [doJSON, het], rfl⟩

theorem authFailure_no_api_call_witness :
    (doJSON ⟨"", 0⟩ 0 (.response 401 "401 Unauthorized" none)
        (.response 200 "200 OK" "" true) false).apiRequested = false ∧
    ∃ e, (doJSON ⟨"", 0⟩ 0 (.response 401 "401 Unauthorized" none)
        (.response 200 "200 OK" "" true) false).result = .error e ∧ isAuthError e = true :=
  authFailure_no_api_call ⟨"", 0⟩ 0 (.response 401 "401 Unauthorized" none)
    (.response 200 "200 OK" "" true) false rfl (Or.inl (by omega))

/-! ### C8 — record API error detail -/

/-- C8: on a record-API response with status ≥ 300, the returned
ApiError's detail is the provider's message when that message is
non-empty, and the raw HTTP status line otherwise. -/
theorem apiError_detail (st : TokenState) (now : Int) (auth : AuthResponse)
    (wantOut : Bool) (code : Nat) (status errMsg : String) (bodyOk : Bool)
    (htok : (ensureToken st now auth).result = .ok ())
    (hcode : 300 ≤ code) :
    (doJSON st now auth (.response code status errMsg bodyOk) wantOut).result =
      .error (.api (if errMsg ≠ "" then "contabo api error: " ++ errMsg
                    else "contabo api error: status " ++ status)) := by
  by_cases hm : errMsg = ""
  · subst hm
    simp [doJSON, htok, doJSONWithToken, hcode]
  · simp [doJSON, htok, doJSONWithToken, hcode, hm]

theorem apiError_detail_witness :
    (doJSON ⟨"tok", 1000000000000⟩ 0 (.response 200 "200 OK" none)
        (.response 404 "404 Not Found" "" true) true).result =
      .error (.api "contabo api error: status 404 Not Found") := by
  have h := apiError_detail ⟨"tok", 1000000000000⟩ 0 (.response 200 "200 OK" none) true
      404 "404 Not Found" "" true rfl (by omega)
  simpa using h

/-! ### C2 — the CleanUp delete loop -/

theorem cleanUpLoop_eq_deleteSeq (del : Int → Except Err Unit) (name value : String) :
    ∀ records : List DNSRecord,
      cleanUpLoop del name value records = deleteSeq del (matchingIDs records name value)
  | [] => rfl
  | r :: rest => by
    unfold cleanUpLoop
    cases h : isACMERecord r name value with
    | false =>
      rw [if_neg (by simp [h])]
      have hm : matchingIDs (r :: rest) name value = matchingIDs rest name value := by
        simp [matchingIDs, List.filter_cons, h]
      rw [hm]
      exact cleanUpLoop_eq_deleteSeq del name value rest
    | true =>
      have hm : matchingIDs (r :: rest) name value =
          r.recordID :: matchingIDs rest name value := by
        simp [matchingIDs, List.filter_cons, h]
      rw [if_pos rfl, hm]
      cases hd : del r.recordID with
      | ok u =>
        simp [deleteSeq, hd, cleanUpLoop_eq_deleteSeq del name value rest]
      | error e =>
        simp [deleteSeq, hd]

theorem deleteSeq_all_ok (del : Int → Except Err Unit) :
    ∀ ids : List Int, (∀ id ∈ ids, del id = .ok ()) → deleteSeq del ids = (ids, .ok ())
  | [], _ => rfl
  | id :: rest, h => by
    have h1 : del id = .ok () := h id (by simp)
    have h2 := deleteSeq_all_ok del rest (fun i hi => h i (by simp [hi]))
    simp [deleteSeq, h1, h2]

theorem deleteSeq_first_error (del : Int → Except Err Unit) (bad : Int) (e : Err)
    (rest : List Int) (hbad : del bad = .error e) :
    ∀ good : List Int, (∀ id ∈ good, del id = .ok ()) →
      deleteSeq del (good ++ bad :: rest) = (good ++ [bad], .error e)
  | [], _ => by simp [deleteSeq, hbad]
  | id :: good, h => by
    have h1 : del id = .ok () := h id (by simp)
    have h2 := deleteSeq_first_error del bad e rest hbad good (fun i hi => h i (by simp [hi]))
    simp [deleteSeq, h1, h2]

/-- C2: CleanUp deletes the matching records sequentially in list order
— when every delete succeeds, its delete calls are exactly the matching
record ids in order; and when a delete fails, it returns that error
immediately, its calls being exactly the (successful) earlier deletes
plus the one failing attempt, each attempted once, with none of the
remaining matches attempted and nothing rolled back. -/
theorem cleanUp_sequential_abort (env : CleanUpEnv) (rz rf key : String)
    (records : List DNSRecord)
    (hlist : env.listRecords (normalizeZone rz) (relativeRecordName rf rz) = .ok records) :
    ((∀ id ∈ matchingIDs records (relativeRecordName rf rz) key,
        env.deleteRecord (normalizeZone rz) id = .ok ()) →
      cleanUp env rz rf key =
        (Op.list (normalizeZone rz) (some (relativeRecordName rf rz)) ::
          (matchingIDs records (relativeRecordName rf rz) key).map
            (Op.delete (normalizeZone rz)),
         .ok ())) ∧
    (∀ good bad rest e,
      matchingIDs records (relativeRecordName rf rz) key = good ++ bad :: rest →
      (∀ id ∈ good, env.deleteRecord (normalizeZone rz) id = .ok ()) →
      env.deleteRecord (normalizeZone rz) bad = .error e →
      cleanUp env rz rf key =
        (Op.list (normalizeZone rz) (some (relativeRecordName rf rz)) ::
          (good ++ [bad]).map (Op.delete (normalizeZone rz)),
         .error e)) := by
  have hname := relativeRecordName_ne_empty rf rz
  constructor
  · intro hok
    simp only [cleanUp]
    rw [hlist]
    try dsimp only
    rw [if_neg hname, cleanUpLoop_eq_deleteSeq,
      deleteSeq_all_ok (env.deleteRecord (normalizeZone rz)) _ hok]
  · intro good bad rest e hm hgood hbad
    simp only [cleanUp]
    rw [hlist]
    try dsimp only
    rw [if_neg hname, cleanUpLoop_eq_deleteSeq, hm,
      deleteSeq_first_error (env.deleteRecord (normalizeZone rz)) bad e rest hbad good hgood]

theorem cleanUp_sequential_abort_witness :
    cleanUp envW "example.com." "_acme-challenge.example.com." "v1" =
      (Op.list (normalizeZone "example.com.")
          (some (relativeRecordName "_acme-challenge.example.com." "example.com.")) ::
        ([1] ++ [2]).map (Op.delete (normalizeZone "example.com.")),
       .error (.api "boom")) :=
  (cleanUp_sequential_abort envW "example.com." "_acme-challenge.example.com." "v1"
      recsW rfl).2 [1] 2 [3] (.api "boom") (by decide)
    (by
      intro id hid
      simp only [List.mem_singleton] at hid
      subst hid
      rfl)
    rfl

/-! ### C5 — Present issues exactly one create -/

/-- C5: Present builds exactly one create request — name the resolved
relative record name, type `"TXT"`, ttl the configured value or the
default, priority 0, data the challenge's proof value — and issues only
that create, with no list (existence check) or delete; two Present calls
therefore issue two creates. -/
theorem present_single_create (cfg : Config) (ch : Challenge) (res : Except Err Unit) :
    (present cfg ch res).1 =
      [Op.create (normalizeZone ch.resolvedZone)
        ⟨relativeRecordName ch.resolvedFQDN ch.resolvedZone, "TXT", cfg.ttl, 0, ch.key⟩] ∧
    cfg.ttl = (if cfg.TTL ≤ 0 then 120 else cfg.TTL) ∧
    (∀ z s, Op.list z s ∉ (present cfg ch res).1) ∧
    (∀ z i, Op.delete z i ∉ (present cfg ch res).1) ∧
    ((present cfg ch res).1 ++ (present cfg ch res).1).countP
        (fun op => match op with | Op.create _ _ => true | _ => false) = 2 := by
  refine ⟨rfl, rfl, ?_, ?_, rfl⟩
  · intro z s hmem
    simp [present] at hmem
  · intro z i hmem
    simp [present] at hmem

/-! ### C10 — credentials from the secret -/

theorem trimSpaceList_eq_nil_iff (l : List Char) :
    trimSpaceList l = [] ↔ ∀ c ∈ l, goIsSpace c = true := by
  unfold trimSpaceList
  rw [List.reverse_eq_nil_iff, List.dropWhile_eq_nil_iff]
  constructor
  · intro h c hc
    have hsplit := List.takeWhile_append_dropWhile (p := goIsSpace) (l := l)
    rw [← hsplit] at hc
    rcases List.mem_append.mp hc with h1 | h2
    · exact List.mem_takeWhile_imp h1
    · exact h c (List.mem_reverse.mpr h2)
  · intro h x hx
    rw [List.dropWhile_eq_nil_iff.mpr h] at hx
    exact absurd hx (by simp)

theorem goTrimSpace_eq_empty_iff (x : String) :
    goTrimSpace x = "" ↔ ∀ ch ∈ x.data, goIsSpace ch = true := by
  constructor
  · intro h
    rw [← trimSpaceList_eq_nil_iff]
    exact congrArg String.data h
  · intro h
    show (⟨trimSpaceList x.data⟩ : String) = ""
    rw [(trimSpaceList_eq_nil_iff x.data).mpr h]

/-- C10: secret values are whitespace-trimmed before validation;
`credentialsFromSecret` fails exactly when one of the four entries is
missing or whitespace-only (trims to empty); on success the credentials
carry the trimmed values; and on failure Present issues no operation
(the error returns before any client is built). -/
theorem credentialsFromSecret_spec (s : SecretData) :
    ((∃ msg, credentialsFromSecret s = .error msg) ↔
      (goTrimSpace (s.clientId.getD "") = "" ∨ goTrimSpace (s.clientSecret.getD "") = "" ∨
       goTrimSpace (s.username.getD "") = "" ∨ goTrimSpace (s.password.getD "") = "")) ∧
    (∀ c, credentialsFromSecret s = .ok c →
      c = ⟨goTrimSpace (s.clientId.getD ""), goTrimSpace (s.clientSecret.getD ""),
           goTrimSpace (s.username.getD ""), goTrimSpace (s.password.getD "")⟩) ∧
    (∀ o : Option String, goTrimSpace (o.getD "") = "" ↔
      ∀ ch ∈ (o.getD "").data, goIsSpace ch = true) ∧
    (∀ cfg ch cres msg, credentialsFromSecret s = .error msg →
      (presentWithSecret cfg s ch cres).1 = []) := by
  have main :
      ((∃ msg, credentialsFromSecret s = .error msg) ↔
        (goTrimSpace (s.clientId.getD "") = "" ∨ goTrimSpace (s.clientSecret.getD "") = "" ∨
         goTrimSpace (s.username.getD "") = "" ∨ goTrimSpace (s.password.getD "") = "")) ∧
      (∀ c, credentialsFromSecret s = .ok c →
        c = ⟨goTrimSpace (s.clientId.getD ""), goTrimSpace (s.clientSecret.getD ""),
             goTrimSpace (s.username.getD ""), goTrimSpace (s.password.getD "")⟩) ∧
      (∀ cfg ch cres msg, credentialsFromSecret s = .error msg →
        (presentWithSecret cfg s ch cres).1 = []) := by
    by_cases h1 : goTrimSpace (s.clientId.getD "") = "" <;>
      by_cases h2 : goTrimSpace (s.clientSecret.getD "") = "" <;>
        by_cases h3 : goTrimSpace (s.username.getD "") = "" <;>
          by_cases h4 : goTrimSpace (s.password.getD "") = "" <;>
            refine ⟨?_, ?_, ?_⟩ <;>
              simp_all [credentialsFromSecret, presentWithSecret]
  exact ⟨main.1, main.2.1, fun o => goTrimSpace_eq_empty_iff (o.getD ""), main.2.2⟩

end ContaboWebhook
